import Mathlib

/-!
Verification of the Jupyter kernel execution pipeline of `bashnota`
(`src/services/codeExecutionService.ts`), shallowly embedded.

The coordinator `executeNotebookBlocks` is an event-driven state machine: a
WebSocket `onopen` callback that sends the first execute request, an
`onmessage` callback that dispatches on the inbound message type, and
`onerror`/`onclose` callbacks that may reject the returned promise.  We embed
the callback state (the captured locals of the promise executor) as an explicit
`CoordState`, the callbacks as state transformers, and a whole run as a left
fold of inbound transport events over the state reached after `onopen`.

Message ids: the source generates ids as `msg-${Date.now()}-${Math.random()}`,
relied upon only for freshness.  We model the id supply as a counter producing
the ids 0, 1, 2, ..., which captures exactly the freshness guarantee.

JavaScript exceptions are modelled explicitly: `JSON.parse` throwing on
malformed input and property access on `undefined` (out-of-range array index)
both surface as a `thrown` outcome carrying the state at the throw point,
since mutations performed before the throw persist in JavaScript.
-/

/-- Association-list map mirroring the JavaScript `Map` used by the service:
`set` replaces an existing key in place (preserving insertion order) or
appends a new one, matching `Map.prototype.set`. -/
def assocSet {K V : Type} [DecidableEq K] : List (K × V) → K → V → List (K × V)
  | [], k, v => [(k, v)]
  | (k', v') :: rest, k, v =>
      if k' = k then (k, v) :: rest else (k', v') :: assocSet rest k v

/-- Lookup mirroring `Map.prototype.get`, returning `none` when the key is absent. -/
def assocGet {K V : Type} [DecidableEq K] : List (K × V) → K → Option V
  | [], _ => none
  | (k', v') :: rest, k => if k' = k then some v' else assocGet rest k

/-- A code cell as passed to `executeNotebookBlocks` (`CodeBlock` in
`types/codeExecution`): id, owning notebook id, source code, and the mutable
error flag the service sets on kernel errors. -/
structure CodeBlock where
  id : String
  notebookId : String
  code : String
  hasError : Bool
deriving DecidableEq, Repr

/-- Per-cell result produced when the batch resolves (`ExecutionResult`). -/
structure ExecutionResult where
  id : String
  hasError : Bool
  output : String
deriving DecidableEq, Repr

/-- The value type of the service's `messageStatus` map:
`{ done: boolean, output: string }`. -/
structure MessageStatus where
  done : Bool
  output : String
deriving DecidableEq, Repr

/-- The outbound execute-request message built by
`createExecuteRequestMessage`, with the generated id made explicit. -/
structure OutMessage where
  msg_id : Nat
  username : String
  session : Nat
  msg_type : String
  version : String
  code : String
  silent : Bool
  store_history : Bool
  allow_stdin : Bool
  channel : String
deriving DecidableEq, Repr

/-- Builds `createExecuteRequestMessage(code)` for a given fresh id. -/
def createExecuteRequestMessage (msgId : Nat) (code : String) : OutMessage :=
  { msg_id := msgId
    username := "bashbook"
    session := msgId
    msg_type := "execute_request"
    version := "5.0"
    code := code
    silent := false
    store_history := true
    allow_stdin := false
    channel := "shell" }

/-- The content fields of an inbound Jupyter message that the `onmessage`
switch reads.  Optional fields model properties that may be absent from the
JSON object; `data` is modelled by its three consulted entries. -/
structure InContent where
  text : Option String
  dataTextPlain : Option String
  dataTextHtml : Option String
  dataImagePng : Option String
  ename : String
  evalue : String
  traceback : List String
  execution_state : Option String
deriving DecidableEq, Repr

/-- A parsed inbound message: `msg.header?.msg_type`,
`msg.parent_header?.msg_id` and `msg.content`. -/
structure InMessage where
  msg_type : Option String
  parent_msg_id : Option Nat
  content : InContent
deriving DecidableEq, Repr

/-- Raw WebSocket frame data: either well-formed JSON encoding an inbound
message, or text on which `JSON.parse` throws a `SyntaxError`. -/
inductive RawData where
  | malformed (s : String)
  | wellFormed (m : InMessage)
deriving DecidableEq, Repr

/-- JavaScript exceptions relevant to the handler: the `SyntaxError` of
`JSON.parse` and the `TypeError` of property access on `undefined`. -/
inductive JsError where
  | parseError
  | typeError
deriving DecidableEq, Repr

/-- The state of the promise returned by `executeNotebookBlocks`; a promise
settles at most once (the first `resolve`/`reject` wins). -/
inductive PromiseState where
  | pending
  | resolved (r : List ExecutionResult)
  | rejected (message : String)
deriving DecidableEq, Repr

/-- Settling: `resolve(r)` settles a pending promise, and is a no-op otherwise. -/
def resolvePromise (p : PromiseState) (r : List ExecutionResult) : PromiseState :=
  match p with
  | .pending => .resolved r
  | _ => p

/-- Rejecting: `reject(new Error(message))` settles a pending promise, and is a no-op otherwise. -/
def rejectPromise (p : PromiseState) (message : String) : PromiseState :=
  match p with
  | .pending => .rejected message
  | _ => p

/-- The captured state of one `executeNotebookBlocks` run: the `codeBlocks`
argument (whose `hasError` flags the handler mutates), the locals
`currentBlockIndex`, `messageStatus` and `results`, the promise, plus
observation logs: the execute requests sent over the socket in order, whether
the coordinator called `ws.close()`, and the `onOutput` invocations. -/
structure CoordState where
  codeBlocks : List CodeBlock
  currentBlockIndex : Nat
  messageStatus : List (Nat × MessageStatus)
  results : List (String × String)
  promise : PromiseState
  sentRequests : List OutMessage
  wsClosed : Bool
  outputCalls : List (String × String)
  nextMsgId : Nat
deriving DecidableEq, Repr

/-- Build, record and send the execute request for `code`
(lines 132–134 / 182–189 of the service). -/
def sendRequest (st : CoordState) (code : String) : CoordState :=
  let message := createExecuteRequestMessage st.nextMsgId code
  { st with
    messageStatus := assocSet st.messageStatus message.msg_id { done := false, output := "" }
    sentRequests := st.sentRequests ++ [message]
    nextMsgId := st.nextMsgId + 1 }

/-- The per-cell result list built at resolution time (lines 192–198):
`codeBlocks.map(block => ({ id, hasError, output: results.get(id) || '' }))`. -/
def resultsList (st : CoordState) : List ExecutionResult :=
  st.codeBlocks.map fun block =>
    { id := block.id
      hasError := block.hasError
      output := (assocGet st.results block.id).getD "" }

/-- Outcome of running `onmessage` on one frame: normal return, or a thrown
JavaScript exception together with the state at the throw point (mutations
already performed persist). -/
inductive HandlerOutcome where
  | ok (st : CoordState)
  | thrown (e : JsError) (st : CoordState)
deriving DecidableEq, Repr

/-- The state after the handler ran, whether or not it threw. -/
def HandlerOutcome.state : HandlerOutcome → CoordState
  | .ok st => st
  | .thrown _ st => st

/-- Whether the handler returned normally. -/
def HandlerOutcome.isOk : HandlerOutcome → Bool
  | .ok _ => true
  | .thrown _ _ => false

/-- The composed fragment of the `execute_result`/`display_data` branch
(lines 155–167), including the JavaScript truthiness of the emptiness checks
on `content.data[...]`. -/
def dataFragment (content : InContent) : String :=
  (match content.dataTextPlain with
   | some s => if s = "" then "" else s ++ "\n"
   | none => "") ++
  (match content.dataTextHtml with
   | some s => if s = "" then "" else s ++ "\n"
   | none => "") ++
  (match content.dataImagePng with
   | some s =>
       if s = "" then ""
       else "<img src=\"data:image/png;base64," ++ s ++ "\" />\n"
   | none => "")

/-- The fragment of the `error` branch (line 170):
`` `Error: ${ename}\n${evalue}\n${traceback.join('\n')}` ``. -/
def errorFragment (content : InContent) : String :=
  "Error: " ++ content.ename ++ "\n" ++ content.evalue ++ "\n" ++
    String.intercalate "\n" content.traceback

/-- Store the (in-place mutated) status object back: the shared-object
mutation `status.output += ...` / `status.done = true` is visible in
`messageStatus` immediately. -/
def updateStatusOutput (st : CoordState) (pid : Nat) (status : MessageStatus) : CoordState :=
  { st with messageStatus := assocSet st.messageStatus pid status }

/-- Lines 204–208: after the switch, if a non-empty fragment was produced and
an `onOutput` callback was supplied, read `codeBlocks[currentBlockIndex].id`
(a `TypeError` when the index is out of range) and invoke the callback; then
`messageStatus.set(parentMsgId, status)` (a no-op re-store of the same
object). -/
def afterSwitch (hasOnOutput : Bool) (st : CoordState) (parentMsgId : Nat)
    (status : MessageStatus) (newOutput : String) : HandlerOutcome :=
  if newOutput ≠ "" ∧ hasOnOutput = true then
    match st.codeBlocks[st.currentBlockIndex]? with
    | none => .thrown .typeError st
    | some b =>
        .ok { st with
              outputCalls := st.outputCalls ++ [(b.id, newOutput)]
              messageStatus := assocSet st.messageStatus parentMsgId status }
  else
    .ok { st with messageStatus := assocSet st.messageStatus parentMsgId status }

/-- The body of `ws.onmessage` after a successful `JSON.parse`
(lines 140–208). -/
def handleParsed (hasOnOutput : Bool) (st : CoordState) (msg : InMessage) : HandlerOutcome :=
  match msg.parent_msg_id with
  | none => .ok st
  | some parentMsgId =>
    match assocGet st.messageStatus parentMsgId with
    | none => .ok st
    | some status0 =>
      if msg.msg_type = some "stream" then
        let newOutput := msg.content.text.getD ""
        let status : MessageStatus := { done := status0.done, output := status0.output ++ newOutput }
        afterSwitch hasOnOutput (updateStatusOutput st parentMsgId status) parentMsgId status newOutput
      else if msg.msg_type = some "execute_result" ∨ msg.msg_type = some "display_data" then
        let newOutput := dataFragment msg.content
        let status : MessageStatus := { done := status0.done, output := status0.output ++ newOutput }
        afterSwitch hasOnOutput (updateStatusOutput st parentMsgId status) parentMsgId status newOutput
      else if msg.msg_type = some "error" then
        let newOutput := errorFragment msg.content
        let status : MessageStatus := { done := status0.done, output := status0.output ++ newOutput }
        let st1 := updateStatusOutput st parentMsgId status
        match st1.codeBlocks[st1.currentBlockIndex]? with
        | none => .thrown .typeError st1
        | some b =>
            let st2 := { st1 with
                         codeBlocks := st1.codeBlocks.set st1.currentBlockIndex
                           { b with hasError := true } }
            afterSwitch hasOnOutput st2 parentMsgId status newOutput
      else if msg.msg_type = some "status" then
        if msg.content.execution_state = some "idle" ∧ status0.done = false then
          let status : MessageStatus := { done := true, output := status0.output }
          let st1 := updateStatusOutput st parentMsgId status
          match st1.codeBlocks[st1.currentBlockIndex]? with
          | none => .thrown .typeError st1
          | some b =>
              let st2 := { st1 with
                           results := assocSet st1.results b.id status.output
                           currentBlockIndex := st1.currentBlockIndex + 1 }
              if st2.currentBlockIndex < st2.codeBlocks.length then
                match st2.codeBlocks[st2.currentBlockIndex]? with
                | none => .thrown .typeError st2
                | some nb => afterSwitch hasOnOutput (sendRequest st2 nb.code) parentMsgId status ""
              else
                let st3 := { st2 with
                             wsClosed := true
                             promise := resolvePromise st2.promise (resultsList st2) }
                afterSwitch hasOnOutput st3 parentMsgId status ""
        else
          afterSwitch hasOnOutput st parentMsgId status0 ""
      else
        afterSwitch hasOnOutput st parentMsgId status0 ""

/-- Handler `ws.onmessage` (lines 138–209): `JSON.parse(event.data)` throws a
`SyntaxError` on malformed data (there is no try/catch around it), otherwise
the parsed message is handled. -/
def onmessage (hasOnOutput : Bool) (st : CoordState) (raw : RawData) : HandlerOutcome :=
  match raw with
  | .malformed _ => .thrown .parseError st
  | .wellFormed msg => handleParsed hasOnOutput st msg

/-- Handler `ws.onopen` (lines 130–136): if the batch is non-empty, send the request
for `codeBlocks[currentBlockIndex]`. -/
def onopen (st : CoordState) : CoordState :=
  if 0 < st.codeBlocks.length then
    match st.codeBlocks[st.currentBlockIndex]? with
    | some b => sendRequest st b.code
    | none => st
  else st

/-- Handler `ws.onerror` (lines 211–214): reject with a transport error. -/
def onerror (st : CoordState) : CoordState :=
  { st with promise := rejectPromise st.promise "WebSocket error" }

/-- Handler `ws.onclose` (lines 216–220): reject iff cells remain unprocessed. -/
def onclose (st : CoordState) : CoordState :=
  if st.currentBlockIndex < st.codeBlocks.length then
    { st with promise := rejectPromise st.promise "WebSocket closed before execution completed" }
  else st

/-- A transport event delivered to the coordinator after the session opened. -/
inductive Event where
  | message (raw : RawData)
  | errorSignal
  | closeSignal
deriving DecidableEq, Repr

/-- One event-loop step.  An exception thrown out of `onmessage` is uncaught:
the run continues from the state at the throw point with the promise
untouched. -/
def step (hasOnOutput : Bool) (st : CoordState) (ev : Event) : CoordState :=
  match ev with
  | .message raw => (onmessage hasOnOutput st raw).state
  | .errorSignal => onerror st
  | .closeSignal => onclose st

/-- The initial captured state of the promise executor (lines 124–128). -/
def initState (codeBlocks : List CodeBlock) : CoordState :=
  { codeBlocks := codeBlocks
    currentBlockIndex := 0
    messageStatus := []
    results := []
    promise := .pending
    sentRequests := []
    wsClosed := false
    outputCalls := []
    nextMsgId := 0 }

/-- A whole `executeNotebookBlocks` run: the state after `onopen` followed by
an arbitrary sequence of transport events. -/
def runBatch (hasOnOutput : Bool) (codeBlocks : List CodeBlock) (evs : List Event) : CoordState :=
  evs.foldl (step hasOnOutput) (onopen (initState codeBlocks))

/-- Content object with every optional field absent. -/
def emptyContent : InContent :=
  { text := none, dataTextPlain := none, dataTextHtml := none, dataImagePng := none
    ename := "", evalue := "", traceback := [], execution_state := none }

/-- An inbound `stream` message. -/
def streamMsg (pid : Nat) (text : String) : InMessage :=
  { msg_type := some "stream", parent_msg_id := some pid
    content := { emptyContent with text := some text } }

/-- An inbound `execute_result` message carrying only `text/plain` data. -/
def resultMsg (pid : Nat) (plain : String) : InMessage :=
  { msg_type := some "execute_result", parent_msg_id := some pid
    content := { emptyContent with dataTextPlain := some plain } }

/-- An inbound `error` message. -/
def errorMsg (pid : Nat) (en ev : String) (tb : List String) : InMessage :=
  { msg_type := some "error", parent_msg_id := some pid
    content := { emptyContent with ename := en, evalue := ev, traceback := tb } }

/-- An inbound idle `status` message. -/
def idleMsg (pid : Nat) : InMessage :=
  { msg_type := some "status", parent_msg_id := some pid
    content := { emptyContent with execution_state := some "idle" } }

/-- Event wrapper for a well-formed inbound message. -/
def msgEv (m : InMessage) : Event := Event.message (RawData.wellFormed m)

/-- Contiguous-subsequence test on character lists, used to express that an
error message "carries" a piece of text. -/
def containsSeq (needle hay : List Char) : Bool :=
  hay.tails.any fun t => needle.isPrefixOf t

/-- Parsed body of a successful kernel-creation response (`data.id`). -/
structure KernelSpec where
  id : String
deriving DecidableEq, Repr

/-- One entry of the kernel list returned by `GET /api/kernels`. -/
structure KernelEntry where
  id : String
  name : String
deriving DecidableEq, Repr

/-- A settled `fetch` response as consumed by the lifecycle client.
`kernelJson` is the result of `JSON.parse(bodyText)` read as a kernel object
(`none` when the body is not well-formed JSON), and `kernelListJson` the
result of `response.json()` read as a kernel list. -/
structure HttpResponse where
  ok : Bool
  status : Nat
  statusText : String
  bodyText : String
  kernelJson : Option KernelSpec
  kernelListJson : Option (List KernelEntry)
deriving DecidableEq, Repr

/-- How a lifecycle-client call fails: an application `Error` with a message,
or the native `SyntaxError` with which `response.json()` rejects. -/
inductive HttpFailure where
  | appError (message : String)
  | jsonSyntaxError
deriving DecidableEq, Repr

/-- HTTP `createKernel` (lines 61–94): non-2xx responses throw an error carrying
status, statusText and (when non-empty) the body; a JSON parse failure on a
2xx response throws the distinct invalid-format error. -/
def createKernel (resp : HttpResponse) : Except HttpFailure String :=
  if resp.ok = false then
    .error (.appError ("Failed to create kernel: " ++ toString resp.status ++ " " ++
      resp.statusText ++ (if resp.bodyText = "" then "" else " - " ++ resp.bodyText)))
  else
    match resp.kernelJson with
    | some data => .ok data.id
    | none => .error (.appError "Invalid response format from Jupyter server")

/-- HTTP `deleteKernel` (lines 96–104): non-2xx responses throw an error carrying
only the statusText. -/
def deleteKernel (resp : HttpResponse) : Except HttpFailure Unit :=
  if resp.ok = false then
    .error (.appError ("Failed to delete kernel: " ++ resp.statusText))
  else .ok ()

/-- HTTP `listKernels` (lines 106–116): non-2xx responses throw an error carrying
only the statusText; on 2xx the result of `response.json()` is returned
as-is, so a malformed body surfaces as the native `SyntaxError`. -/
def listKernels (resp : HttpResponse) : Except HttpFailure (List KernelEntry) :=
  if resp.ok = false then
    .error (.appError ("Failed to list kernels: " ++ resp.statusText))
  else
    match resp.kernelListJson with
    | some l => .ok l
    | none => .error .jsonSyntaxError

/-- Reachability invariant of a coordinator run on the batch `blocks`: the
cell list only ever changes in its `hasError` flags; at most
`currentBlockIndex + 1` requests have been sent (and never more than the
batch size); the request for cell `j` carries id `j` and cell `j`'s code; the
`messageStatus` keys are exactly the ids of the sent requests; an entry is
marked done exactly when its cell index has been passed; and a resolved
promise carries the snapshot of the per-cell results with the index fully
advanced. -/
structure CoordInv (blocks : List CodeBlock) (st : CoordState) : Prop where
  blocks_len : st.codeBlocks.length = blocks.length
  blocks_rel : ∀ (j : Nat) (b : CodeBlock), blocks[j]? = some b →
      ∃ b' : CodeBlock, st.codeBlocks[j]? = some b' ∧
      b'.id = b.id ∧ b'.notebookId = b.notebookId ∧ b'.code = b.code ∧
      (b.hasError = true → b'.hasError = true)
  idx_le : st.currentBlockIndex ≤ blocks.length
  sent_len : st.sentRequests.length = min (st.currentBlockIndex + 1) blocks.length
  sent_spec : ∀ (j : Nat) (r : OutMessage), st.sentRequests[j]? = some r →
      r.msg_id = j ∧ (blocks[j]?).map CodeBlock.code = some r.code
  counter : st.nextMsgId = st.sentRequests.length
  keys : st.messageStatus.map Prod.fst = List.range st.sentRequests.length
  done_iff : ∀ (j : Nat) (ms : MessageStatus), assocGet st.messageStatus j = some ms →
      (ms.done = true ↔ j < st.currentBlockIndex)
  resolved_inv : ∀ (r : List ExecutionResult), st.promise = PromiseState.resolved r →
      st.currentBlockIndex = blocks.length ∧ 0 < blocks.length ∧ r = resultsList st

/-! ## Lemmas on the association-list map -/

theorem assocGet_assocSet_self {K V : Type} [DecidableEq K] (m : List (K × V)) (k : K) (v : V) :
    assocGet (assocSet m k v) k = some v := by
  induction m with
  | nil => simp [assocSet, assocGet]
  | cons hd tl ih =>
    obtain ⟨k', v'⟩ := hd
    by_cases hk : k' = k
    · simp [assocSet, assocGet, hk]
    · simp [assocSet, assocGet, hk, ih]

theorem assocGet_assocSet_ne {K V : Type} [DecidableEq K] (m : List (K × V)) (k k' : K) (v : V)
    (h : k' ≠ k) : assocGet (assocSet m k v) k' = assocGet m k' := by
  have h2 : ¬(k = k') := fun e => h e.symm
  induction m with
  | nil => simp [assocSet, assocGet, h2]
  | cons hd tl ih =>
    obtain ⟨k₀, v₀⟩ := hd
    by_cases hk : k₀ = k
    · subst hk
      simp [assocSet, assocGet, h2]
    · simp [assocSet, assocGet, hk, ih]

theorem assocSet_same {K V : Type} [DecidableEq K] (m : List (K × V)) (k : K) (v : V)
    (h : assocGet m k = some v) : assocSet m k v = m := by
  induction m with
  | nil => simp [assocGet] at h
  | cons hd tl ih =>
    obtain ⟨k', v'⟩ := hd
    by_cases hk : k' = k
    · subst hk
      simp [assocGet] at h
      simp [assocSet, h]
    · simp [assocGet, hk] at h
      simp [assocSet, hk, ih h]

theorem assocGet_isSome_iff {K V : Type} [DecidableEq K] (m : List (K × V)) (k : K) :
    (assocGet m k).isSome = true ↔ k ∈ m.map Prod.fst := by
  induction m with
  | nil => simp [assocGet]
  | cons hd tl ih =>
    obtain ⟨k', v'⟩ := hd
    by_cases hk : k' = k
    · subst hk; simp [assocGet]
    · simp [assocGet, hk, ih, Ne.symm hk]

theorem assocSet_keys {K V : Type} [DecidableEq K] (m : List (K × V)) (k : K) (v : V) :
    (assocSet m k v).map Prod.fst =
      if k ∈ m.map Prod.fst then m.map Prod.fst else m.map Prod.fst ++ [k] := by
  induction m with
  | nil => simp [assocSet]
  | cons hd tl ih =>
    obtain ⟨k', v'⟩ := hd
    by_cases hk : k' = k
    · subst hk; simp [assocSet]
    · by_cases hm : k ∈ tl.map Prod.fst
      · simp [assocSet, hk, ih, hm, Ne.symm hk]
      · simp [assocSet, hk, ih, hm, Ne.symm hk]

theorem assocGet_mem_keys {K V : Type} [DecidableEq K] {m : List (K × V)} {k : K} {v : V}
    (h : assocGet m k = some v) : k ∈ m.map Prod.fst :=
  (assocGet_isSome_iff m k).mp (by rw [h]; rfl)

theorem assocGet_lt_of_keys {V : Type} {m : List (Nat × V)} {n j : Nat} {v : V}
    (hkeys : m.map Prod.fst = List.range n) (h : assocGet m j = some v) : j < n := by
  have hm := assocGet_mem_keys h
  rw [hkeys] at hm
  exact List.mem_range.mp hm

/-! ## Preservation of the invariant -/

theorem inv_outputCalls {blocks : List CodeBlock} {st : CoordState} (h : CoordInv blocks st)
    (oc : List (String × String)) : CoordInv blocks { st with outputCalls := oc } :=
  ⟨h.blocks_len, h.blocks_rel, h.idx_le, h.sent_len, h.sent_spec, h.counter, h.keys,
    h.done_iff, h.resolved_inv⟩

theorem inv_afterSwitch {blocks : List CodeBlock} {st : CoordState} (h : CoordInv blocks st)
    (hOn : Bool) (pid : Nat) (status : MessageStatus) (o : String)
    (hget : assocGet st.messageStatus pid = some status) :
    CoordInv blocks (afterSwitch hOn st pid status o).state := by
  have hset : assocSet st.messageStatus pid status = st.messageStatus :=
    assocSet_same _ _ _ hget
  unfold afterSwitch
  split
  · cases hb : st.codeBlocks[st.currentBlockIndex]? with
    | none => exact h
    | some b =>
      simp only [HandlerOutcome.state, hset]
      exact ⟨h.blocks_len, h.blocks_rel, h.idx_le, h.sent_len, h.sent_spec, h.counter,
        h.keys, h.done_iff, h.resolved_inv⟩
  · simp only [HandlerOutcome.state, hset]
    exact h

theorem inv_updateStatus {blocks : List CodeBlock} {st : CoordState} (h : CoordInv blocks st)
    (pid : Nat) (s0 ms : MessageStatus)
    (hget : assocGet st.messageStatus pid = some s0) (hdone : ms.done = s0.done) :
    CoordInv blocks (updateStatusOutput st pid ms) := by
  have hmem : pid ∈ st.messageStatus.map Prod.fst := assocGet_mem_keys hget
  refine ⟨h.blocks_len, h.blocks_rel, h.idx_le, h.sent_len, h.sent_spec, h.counter, ?_, ?_,
    h.resolved_inv⟩
  · show (assocSet st.messageStatus pid ms).map Prod.fst = List.range st.sentRequests.length
    rw [assocSet_keys]
    have hlt : pid < st.sentRequests.length := by
      rw [h.keys] at hmem
      exact List.mem_range.mp hmem
    simp [hmem, h.keys, hlt]
  · intro j msj hj
    by_cases hjp : j = pid
    · subst hjp
      have : assocGet (assocSet st.messageStatus j ms) j = some ms :=
        assocGet_assocSet_self _ _ _
      rw [show (updateStatusOutput st j ms).messageStatus = assocSet st.messageStatus j ms
        from rfl, this] at hj
      cases hj
      rw [hdone]
      exact h.done_iff _ _ hget
    · rw [show (updateStatusOutput st pid ms).messageStatus = assocSet st.messageStatus pid ms
        from rfl, assocGet_assocSet_ne _ _ _ _ hjp] at hj
      exact h.done_iff _ _ hj

theorem inv_setError {blocks : List CodeBlock} {st : CoordState} {b : CodeBlock}
    (h : CoordInv blocks st)
    (hb : st.codeBlocks[st.currentBlockIndex]? = some b) :
    CoordInv blocks
      { st with codeBlocks :=
          st.codeBlocks.set st.currentBlockIndex { b with hasError := true } } := by
  have hlt : st.currentBlockIndex < st.codeBlocks.length := by
    by_contra hge
    rw [List.getElem?_eq_none (Nat.le_of_not_lt hge)] at hb
    cases hb
  refine ⟨?_, ?_, h.idx_le, h.sent_len, h.sent_spec, h.counter, h.keys, h.done_iff, ?_⟩
  · simpa using h.blocks_len
  · intro j bb hbb
    obtain ⟨b', hb', hid, hnb, hcode, herr⟩ := h.blocks_rel j bb hbb
    by_cases hj : j = st.currentBlockIndex
    · subst hj
      have hbb' : b' = b := by
        rw [hb] at hb'
        cases hb'
        rfl
      subst hbb'
      exact ⟨{ b' with hasError := true }, List.getElem?_set_self hlt, hid, hnb, hcode,
        fun _ => rfl⟩
    · exact ⟨b', by rw [List.getElem?_set_ne (fun e => hj e.symm)]; exact hb', hid, hnb, hcode,
        herr⟩
  · intro r hr
    have hres := h.resolved_inv r hr
    have : st.currentBlockIndex < blocks.length := by rw [← h.blocks_len]; exact hlt
    omega

theorem inv_advance_send {blocks : List CodeBlock} {st : CoordState} (h : CoordInv blocks st)
    {pid : Nat} {s0 : MessageStatus} {b nb : CodeBlock}
    (hg : assocGet st.messageStatus pid = some s0)
    (hnd : s0.done = false)
    (_hb : st.codeBlocks[st.currentBlockIndex]? = some b)
    (hlt : st.currentBlockIndex + 1 < st.codeBlocks.length)
    (hnb : st.codeBlocks[st.currentBlockIndex + 1]? = some nb) :
    CoordInv blocks
      (sendRequest
        { st with
          messageStatus := assocSet st.messageStatus pid { done := true, output := s0.output }
          results := assocSet st.results b.id s0.output
          currentBlockIndex := st.currentBlockIndex + 1 }
        nb.code) := by
  have hbl := h.blocks_len
  have hsl := h.sent_len
  have hcnt := h.counter
  have hpidk : pid < st.sentRequests.length := assocGet_lt_of_keys h.keys hg
  have hd := h.done_iff pid s0 hg
  rw [hnd] at hd
  simp only [Bool.false_eq_true, false_iff] at hd
  have hpid : pid = st.currentBlockIndex := by omega
  have hkidx : st.sentRequests.length = st.currentBlockIndex + 1 := by omega
  have hidxN : st.currentBlockIndex + 1 < blocks.length := by omega
  have hpmem : pid ∈ st.messageStatus.map Prod.fst := assocGet_mem_keys hg
  have hkeys1 : (assocSet st.messageStatus pid
      { done := true, output := s0.output } : List (Nat × MessageStatus)).map Prod.fst =
      List.range st.sentRequests.length := by
    rw [assocSet_keys]
    simp [hpmem, h.keys, hpidk]
  refine ⟨h.blocks_len, h.blocks_rel, ?_, ?_, ?_, ?_, ?_, ?_, ?_⟩
  · show st.currentBlockIndex + 1 ≤ blocks.length
    omega
  · show (st.sentRequests ++ [createExecuteRequestMessage st.nextMsgId nb.code]).length =
      min (st.currentBlockIndex + 1 + 1) blocks.length
    simp only [List.length_append, List.length_singleton]
    omega
  · intro j r hj
    simp only [sendRequest] at hj
    rcases Nat.lt_trichotomy j st.sentRequests.length with hj1 | hj1 | hj1
    · rw [List.getElem?_append_left hj1] at hj
      exact h.sent_spec j r hj
    · subst hj1
      rw [List.getElem?_concat_length] at hj
      cases hj
      refine ⟨hcnt, ?_⟩
      have hbj : blocks[st.currentBlockIndex + 1]? = some blocks[st.currentBlockIndex + 1] :=
        List.getElem?_eq_getElem (by omega)
      obtain ⟨b', hb', _, _, hcode, _⟩ := h.blocks_rel _ _ hbj
      rw [hnb] at hb'
      cases hb'
      rw [hkidx, hbj]
      simpa [createExecuteRequestMessage] using hcode.symm
    · rw [List.getElem?_eq_none (by simp; omega)] at hj
      cases hj
  · show st.nextMsgId + 1 =
      (st.sentRequests ++ [createExecuteRequestMessage st.nextMsgId nb.code]).length
    simp only [List.length_append, List.length_singleton]
    omega
  · show (assocSet (assocSet st.messageStatus pid { done := true, output := s0.output })
        (createExecuteRequestMessage st.nextMsgId nb.code).msg_id
        { done := false, output := "" }).map Prod.fst =
      List.range (st.sentRequests ++ [createExecuteRequestMessage st.nextMsgId nb.code]).length
    have hmid : (createExecuteRequestMessage st.nextMsgId nb.code).msg_id = st.nextMsgId := rfl
    rw [hmid, assocSet_keys, hkeys1, hcnt]
    simp [List.mem_range, List.range_succ]
  · intro j ms hj
    show ms.done = true ↔ j < st.currentBlockIndex + 1
    simp only [sendRequest, createExecuteRequestMessage] at hj
    by_cases hjn : j = st.nextMsgId
    · subst hjn
      rw [assocGet_assocSet_self] at hj
      cases hj
      simp only [Bool.false_eq_true, false_iff]
      omega
    · rw [assocGet_assocSet_ne _ _ _ _ hjn] at hj
      by_cases hjp : j = pid
      · subst hjp
        rw [assocGet_assocSet_self] at hj
        cases hj
        simp only [true_iff]
        omega
      · rw [assocGet_assocSet_ne _ _ _ _ hjp] at hj
        rw [h.done_iff j ms hj]
        omega
  · intro r hr
    obtain ⟨he, _, _⟩ := h.resolved_inv r hr
    exfalso
    omega

theorem inv_advance_resolve {blocks : List CodeBlock} {st : CoordState} (h : CoordInv blocks st)
    {pid : Nat} {s0 : MessageStatus} {b : CodeBlock}
    (hg : assocGet st.messageStatus pid = some s0)
    (hnd : s0.done = false)
    (hb : st.codeBlocks[st.currentBlockIndex]? = some b)
    (hge : ¬ st.currentBlockIndex + 1 < st.codeBlocks.length) :
    CoordInv blocks
      { st with
        messageStatus := assocSet st.messageStatus pid { done := true, output := s0.output }
        results := assocSet st.results b.id s0.output
        currentBlockIndex := st.currentBlockIndex + 1
        wsClosed := true
        promise := resolvePromise st.promise
          (resultsList
            { st with
              messageStatus :=
                assocSet st.messageStatus pid { done := true, output := s0.output }
              results := assocSet st.results b.id s0.output
              currentBlockIndex := st.currentBlockIndex + 1 }) } := by
  have hbl := h.blocks_len
  have hsl := h.sent_len
  have hblt : st.currentBlockIndex < st.codeBlocks.length := by
    by_contra hc
    rw [List.getElem?_eq_none (Nat.le_of_not_lt hc)] at hb
    cases hb
  have hN : st.currentBlockIndex + 1 = blocks.length := by omega
  have hpidk : pid < st.sentRequests.length := assocGet_lt_of_keys h.keys hg
  have hd := h.done_iff pid s0 hg
  rw [hnd] at hd
  simp only [Bool.false_eq_true, false_iff] at hd
  have hpid : pid = st.currentBlockIndex := by omega
  have hpmem : pid ∈ st.messageStatus.map Prod.fst := assocGet_mem_keys hg
  refine ⟨h.blocks_len, h.blocks_rel, ?_, ?_, h.sent_spec, h.counter, ?_, ?_, ?_⟩
  · show st.currentBlockIndex + 1 ≤ blocks.length
    omega
  · show st.sentRequests.length = min (st.currentBlockIndex + 1 + 1) blocks.length
    omega
  · show (assocSet st.messageStatus pid { done := true, output := s0.output }).map Prod.fst =
      List.range st.sentRequests.length
    rw [assocSet_keys]
    simp [hpmem, h.keys, hpidk]
  · intro j ms hj
    show ms.done = true ↔ j < st.currentBlockIndex + 1
    by_cases hjp : j = pid
    · subst hjp
      have hself : assocGet (assocSet st.messageStatus j
          { done := true, output := s0.output }) j = some { done := true, output := s0.output } :=
        assocGet_assocSet_self _ _ _
      have hj2 : assocGet (assocSet st.messageStatus j
          { done := true, output := s0.output }) j = some ms := hj
      rw [hself] at hj2
      cases hj2
      simp only [true_iff]
      omega
    · have hj2 : assocGet (assocSet st.messageStatus pid
          { done := true, output := s0.output }) j = some ms := hj
      rw [assocGet_assocSet_ne _ _ _ _ hjp] at hj2
      rw [h.done_iff j ms hj2]
      omega
  · intro r hr
    have hr2 : resolvePromise st.promise
        (resultsList
          { st with
            messageStatus := assocSet st.messageStatus pid { done := true, output := s0.output }
            results := assocSet st.results b.id s0.output
            currentBlockIndex := st.currentBlockIndex + 1 }) = PromiseState.resolved r := hr
    cases hps : st.promise with
    | pending =>
      rw [hps] at hr2
      simp only [resolvePromise] at hr2
      cases hr2
      exact ⟨hN, by omega, rfl⟩
    | resolved r1 =>
      obtain ⟨he, _, _⟩ := h.resolved_inv r1 hps
      exfalso
      omega
    | rejected m =>
      rw [hps] at hr2
      simp only [resolvePromise] at hr2
      cases hr2

theorem inv_handleParsed {blocks : List CodeBlock} {st : CoordState} (h : CoordInv blocks st)
    (hOn : Bool) (msg : InMessage) :
    CoordInv blocks (handleParsed hOn st msg).state := by
  unfold handleParsed
  cases hp : msg.parent_msg_id with
  | none => exact h
  | some pid =>
    dsimp only
    cases hg : assocGet st.messageStatus pid with
    | none => exact h
    | some s0 =>
      dsimp only
      by_cases h1 : msg.msg_type = some "stream"
      · rw [if_pos h1]
        exact inv_afterSwitch
          (inv_updateStatus h pid s0
            { done := s0.done, output := s0.output ++ msg.content.text.getD "" } hg rfl)
          hOn pid _ _ (assocGet_assocSet_self _ _ _)
      · rw [if_neg h1]
        by_cases h2 : msg.msg_type = some "execute_result" ∨ msg.msg_type = some "display_data"
        · rw [if_pos h2]
          exact inv_afterSwitch
            (inv_updateStatus h pid s0
              { done := s0.done, output := s0.output ++ dataFragment msg.content } hg rfl)
            hOn pid _ _ (assocGet_assocSet_self _ _ _)
        · rw [if_neg h2]
          by_cases h3 : msg.msg_type = some "error"
          · rw [if_pos h3]
            have hinv1 : CoordInv blocks (updateStatusOutput st pid
                { done := s0.done, output := s0.output ++ errorFragment msg.content }) :=
              inv_updateStatus h pid s0 _ hg rfl
            dsimp only [updateStatusOutput]
            cases hb : st.codeBlocks[st.currentBlockIndex]? with
            | none => exact hinv1
            | some b =>
              exact inv_afterSwitch (inv_setError hinv1 hb) hOn pid _ _
                (assocGet_assocSet_self _ _ _)
          · rw [if_neg h3]
            by_cases h4 : msg.msg_type = some "status"
            · rw [if_pos h4]
              by_cases h5 : msg.content.execution_state = some "idle" ∧ s0.done = false
              · rw [if_pos h5]
                obtain ⟨h5a, h5b⟩ := h5
                have hpidk : pid < st.sentRequests.length := assocGet_lt_of_keys h.keys hg
                have hd := h.done_iff pid s0 hg
                rw [h5b] at hd
                simp only [Bool.false_eq_true, false_iff] at hd
                have hsl := h.sent_len
                have hbl := h.blocks_len
                have hcnt := h.counter
                have hblt : st.currentBlockIndex < st.codeBlocks.length := by omega
                dsimp only [updateStatusOutput]
                cases hb : st.codeBlocks[st.currentBlockIndex]? with
                | none =>
                  rw [List.getElem?_eq_none_iff] at hb
                  omega
                | some b =>
                  dsimp only
                  by_cases h6 : st.currentBlockIndex + 1 < st.codeBlocks.length
                  · rw [if_pos h6]
                    cases hnb : st.codeBlocks[st.currentBlockIndex + 1]? with
                    | none =>
                      rw [List.getElem?_eq_none_iff] at hnb
                      omega
                    | some nb =>
                      have hget2 : assocGet (assocSet (assocSet st.messageStatus pid
                          { done := true, output := s0.output }) st.nextMsgId
                          { done := false, output := "" }) pid =
                          some { done := true, output := s0.output } := by
                        rw [assocGet_assocSet_ne _ _ _ _ (by omega : pid ≠ st.nextMsgId)]
                        exact assocGet_assocSet_self _ _ _
                      exact inv_afterSwitch (inv_advance_send h hg h5b hb h6 hnb) hOn pid _ _
                        hget2
                  · rw [if_neg h6]
                    exact inv_afterSwitch (inv_advance_resolve h hg h5b hb h6) hOn pid _ _
                      (assocGet_assocSet_self _ _ _)
              · rw [if_neg h5]
                exact inv_afterSwitch h hOn pid _ _ hg
            · rw [if_neg h4]
              exact inv_afterSwitch h hOn pid _ _ hg

theorem inv_rejectPromise {blocks : List CodeBlock} {st : CoordState} (h : CoordInv blocks st)
    (m : String) : CoordInv blocks { st with promise := rejectPromise st.promise m } := by
  refine ⟨h.blocks_len, h.blocks_rel, h.idx_le, h.sent_len, h.sent_spec, h.counter, h.keys,
    h.done_iff, ?_⟩
  intro r hr
  have hr2 : rejectPromise st.promise m = PromiseState.resolved r := hr
  cases hps : st.promise with
  | pending =>
    rw [hps] at hr2
    simp [rejectPromise] at hr2
  | resolved r1 =>
    rw [hps] at hr2
    simp only [rejectPromise] at hr2
    cases hr2
    exact h.resolved_inv _ hps
  | rejected m1 =>
    rw [hps] at hr2
    simp [rejectPromise] at hr2

theorem inv_step {blocks : List CodeBlock} {st : CoordState} (h : CoordInv blocks st)
    (hOn : Bool) (ev : Event) : CoordInv blocks (step hOn st ev) := by
  cases ev with
  | message raw =>
    cases raw with
    | malformed s => exact h
    | wellFormed m => exact inv_handleParsed h hOn m
  | errorSignal => exact inv_rejectPromise h _
  | closeSignal =>
    show CoordInv blocks (onclose st)
    unfold onclose
    by_cases hc : st.currentBlockIndex < st.codeBlocks.length
    · rw [if_pos hc]
      exact inv_rejectPromise h _
    · rw [if_neg hc]
      exact h

theorem inv_init (blocks : List CodeBlock) : CoordInv blocks (onopen (initState blocks)) := by
  unfold onopen initState
  dsimp only
  by_cases hne : 0 < blocks.length
  · rw [if_pos hne]
    cases hb0 : blocks[0]? with
    | none =>
      rw [List.getElem?_eq_none_iff] at hb0
      omega
    | some b =>
      dsimp only [sendRequest, createExecuteRequestMessage]
      refine ⟨rfl, ?_, ?_, ?_, ?_, rfl, ?_, ?_, ?_⟩
      · exact fun j bb hbb => ⟨bb, hbb, rfl, rfl, rfl, fun e => e⟩
      · show 0 ≤ blocks.length
        omega
      · show 1 = min (0 + 1) blocks.length
        omega
      · intro j r hj
        cases j with
        | zero =>
          simp only [List.nil_append, List.getElem?_cons_zero] at hj
          cases hj
          exact ⟨rfl, by rw [hb0]; rfl⟩
        | succ n =>
          simp at hj
      · show List.map Prod.fst (assocSet [] 0 { done := false, output := "" }) = List.range 1
        simp [assocSet, List.range_succ]
      · intro j ms hj
        show ms.done = true ↔ j < 0
        by_cases hj0 : j = 0
        · subst hj0
          simp only [assocSet, assocGet, if_pos rfl] at hj
          cases hj
          simp
        · simp only [assocSet, assocGet] at hj
          rw [if_neg (fun e => hj0 e.symm)] at hj
          simp [assocGet] at hj
      · intro r hr
        simp at hr
  · rw [if_neg hne]
    refine ⟨rfl, ?_, ?_, ?_, ?_, rfl, rfl, ?_, ?_⟩
    · exact fun j bb hbb => ⟨bb, hbb, rfl, rfl, rfl, fun e => e⟩
    · show 0 ≤ blocks.length
      omega
    · show 0 = min (0 + 1) blocks.length
      omega
    · intro j r hj
      simp at hj
    · intro j ms hj
      simp [assocGet] at hj
    · intro r hr
      simp at hr

theorem inv_runBatch (hOn : Bool) (blocks : List CodeBlock) (evs : List Event) :
    CoordInv blocks (runBatch hOn blocks evs) := by
  unfold runBatch
  have hgen : ∀ st : CoordState, CoordInv blocks st →
      CoordInv blocks (evs.foldl (step hOn) st) := by
    induction evs with
    | nil => exact fun st hst => hst
    | cons e rest ih => exact fun st hst => ih _ (inv_step hst hOn e)
  exact hgen _ (inv_init blocks)

theorem afterSwitch_fields (hOn : Bool) (st : CoordState) (pid : Nat) (status : MessageStatus)
    (o : String) :
    ((afterSwitch hOn st pid status o).state).sentRequests = st.sentRequests ∧
    ((afterSwitch hOn st pid status o).state).codeBlocks = st.codeBlocks ∧
    ((afterSwitch hOn st pid status o).state).currentBlockIndex = st.currentBlockIndex ∧
    ((afterSwitch hOn st pid status o).state).promise = st.promise ∧
    ((afterSwitch hOn st pid status o).state).results = st.results := by
  unfold afterSwitch
  split
  · cases st.codeBlocks[st.currentBlockIndex]? <;> exact ⟨rfl, rfl, rfl, rfl, rfl⟩
  · exact ⟨rfl, rfl, rfl, rfl, rfl⟩

theorem onopen_codeBlocks (st : CoordState) : (onopen st).codeBlocks = st.codeBlocks := by
  unfold onopen
  split
  · cases st.codeBlocks[st.currentBlockIndex]? <;> rfl
  · rfl

theorem runBatch_concat (hOn : Bool) (blocks : List CodeBlock) (evs : List Event) (ev : Event) :
    runBatch hOn blocks (evs ++ [ev]) = step hOn (runBatch hOn blocks evs) ev := by
  unfold runBatch
  rw [List.foldl_append]
  rfl

theorem handleParsed_sent {blocks : List CodeBlock} {st : CoordState} (h : CoordInv blocks st)
    (hOn : Bool) (msg : InMessage)
    (hne : ((handleParsed hOn st msg).state).sentRequests ≠ st.sentRequests) :
    msg.msg_type = some "status" ∧ msg.content.execution_state = some "idle" ∧
    msg.parent_msg_id = some st.currentBlockIndex ∧
    (st.sentRequests[st.currentBlockIndex]?).map OutMessage.msg_id =
      some st.currentBlockIndex ∧
    st.currentBlockIndex + 1 < blocks.length ∧
    ((handleParsed hOn st msg).state).sentRequests.length = st.currentBlockIndex + 2 ∧
    (((handleParsed hOn st msg).state).sentRequests[st.currentBlockIndex + 1]?).map
      OutMessage.code = (blocks[st.currentBlockIndex + 1]?).map CodeBlock.code := by
  unfold handleParsed at hne ⊢
  cases hp : msg.parent_msg_id with
  | none => rw [hp] at hne; exact absurd rfl hne
  | some pid =>
    rw [hp] at hne
    dsimp only at hne ⊢
    cases hg : assocGet st.messageStatus pid with
    | none => rw [hg] at hne; exact absurd rfl hne
    | some s0 =>
      rw [hg] at hne
      dsimp only at hne ⊢
      by_cases h1 : msg.msg_type = some "stream"
      · rw [if_pos h1] at hne
        exact absurd (afterSwitch_fields hOn _ pid _ _).1 hne
      · rw [if_neg h1] at hne ⊢
        by_cases h2 : msg.msg_type = some "execute_result" ∨ msg.msg_type = some "display_data"
        · rw [if_pos h2] at hne
          exact absurd (afterSwitch_fields hOn _ pid _ _).1 hne
        · rw [if_neg h2] at hne ⊢
          by_cases h3 : msg.msg_type = some "error"
          · rw [if_pos h3] at hne
            dsimp only [updateStatusOutput] at hne
            cases hb : st.codeBlocks[st.currentBlockIndex]? with
            | none => rw [hb] at hne; exact absurd rfl hne
            | some b =>
              rw [hb] at hne
              exact absurd (afterSwitch_fields hOn _ pid _ _).1 hne
          · rw [if_neg h3] at hne ⊢
            by_cases h4 : msg.msg_type = some "status"
            · rw [if_pos h4] at hne ⊢
              by_cases h5 : msg.content.execution_state = some "idle" ∧ s0.done = false
              · rw [if_pos h5] at hne ⊢
                obtain ⟨h5a, h5b⟩ := h5
                have hpidk : pid < st.sentRequests.length := assocGet_lt_of_keys h.keys hg
                have hd := h.done_iff pid s0 hg
                rw [h5b] at hd
                simp only [Bool.false_eq_true, false_iff] at hd
                have hsl := h.sent_len
                have hbl := h.blocks_len
                have hcnt := h.counter
                have hpid : pid = st.currentBlockIndex := by omega
                have hblt : st.currentBlockIndex < st.codeBlocks.length := by omega
                have hkidx : st.sentRequests.length = st.currentBlockIndex + 1 := by omega
                dsimp only [updateStatusOutput] at hne ⊢
                cases hb : st.codeBlocks[st.currentBlockIndex]? with
                | none =>
                  rw [List.getElem?_eq_none_iff] at hb
                  omega
                | some b =>
                  rw [hb] at hne
                  dsimp only at hne ⊢
                  by_cases h6 : st.currentBlockIndex + 1 < st.codeBlocks.length
                  · rw [if_pos h6] at hne ⊢
                    cases hnb : st.codeBlocks[st.currentBlockIndex + 1]? with
                    | none =>
                      rw [List.getElem?_eq_none_iff] at hnb
                      omega
                    | some nb =>
                      rw [hnb] at hne
                      dsimp only at hne ⊢
                      refine ⟨h4, h5a, by rw [hpid], ?_, by omega, ?_, ?_⟩
                      · have hsome : st.sentRequests[st.currentBlockIndex]? =
                            some st.sentRequests[st.currentBlockIndex] :=
                          List.getElem?_eq_getElem (by omega)
                        obtain ⟨hmid, -⟩ := h.sent_spec _ _ hsome
                        rw [hsome]
                        simpa using hmid
                      · rw [(afterSwitch_fields hOn _ pid _ _).1]
                        show (st.sentRequests ++
                          [createExecuteRequestMessage st.nextMsgId nb.code]).length =
                          st.currentBlockIndex + 2
                        simp only [List.length_append, List.length_singleton]
                        omega
                      · rw [(afterSwitch_fields hOn _ pid _ _).1]
                        show ((st.sentRequests ++
                            [createExecuteRequestMessage st.nextMsgId nb.code])[st.currentBlockIndex + 1]?).map
                            OutMessage.code = (blocks[st.currentBlockIndex + 1]?).map CodeBlock.code
                        have hconcat : (st.sentRequests ++
                            [createExecuteRequestMessage st.nextMsgId nb.code])[st.currentBlockIndex + 1]? =
                            some (createExecuteRequestMessage st.nextMsgId nb.code) := by
                          rw [← hkidx]
                          exact List.getElem?_concat_length _ _
                        have hbj : blocks[st.currentBlockIndex + 1]? =
                            some blocks[st.currentBlockIndex + 1] :=
                          List.getElem?_eq_getElem (by omega)
                        obtain ⟨b', hb', _, _, hcode, _⟩ := h.blocks_rel _ _ hbj
                        rw [hnb] at hb'
                        cases hb'
                        rw [hconcat, hbj]
                        simpa [createExecuteRequestMessage] using hcode
                  · rw [if_neg h6] at hne
                    exact absurd (afterSwitch_fields hOn _ pid _ _).1 hne
              · rw [if_neg h5] at hne
                exact absurd (afterSwitch_fields hOn _ pid _ _).1 hne
            · rw [if_neg h4] at hne
              exact absurd (afterSwitch_fields hOn _ pid _ _).1 hne

theorem step_hasError {hOn : Bool} {st : CoordState} {ev : Event} {j : Nat}
    (hnot : ∀ msg : InMessage, ev = Event.message (RawData.wellFormed msg) →
      msg.msg_type = some "error" → st.currentBlockIndex ≠ j) :
    ((step hOn st ev).codeBlocks[j]?).map CodeBlock.hasError =
      (st.codeBlocks[j]?).map CodeBlock.hasError := by
  cases ev with
  | errorSignal => rfl
  | closeSignal =>
    show ((onclose st).codeBlocks[j]?).map CodeBlock.hasError = _
    unfold onclose
    split <;> rfl
  | message raw =>
    cases raw with
    | malformed s => rfl
    | wellFormed msg =>
      show (((handleParsed hOn st msg).state).codeBlocks[j]?).map CodeBlock.hasError = _
      unfold handleParsed
      cases hp : msg.parent_msg_id with
      | none => rfl
      | some pid =>
        dsimp only
        cases hg : assocGet st.messageStatus pid with
        | none => rfl
        | some s0 =>
          dsimp only
          by_cases h1 : msg.msg_type = some "stream"
          · rw [if_pos h1, (afterSwitch_fields hOn _ pid _ _).2.1]
            rfl
          · rw [if_neg h1]
            by_cases h2 : msg.msg_type = some "execute_result" ∨
                msg.msg_type = some "display_data"
            · rw [if_pos h2, (afterSwitch_fields hOn _ pid _ _).2.1]
              rfl
            · rw [if_neg h2]
              by_cases h3 : msg.msg_type = some "error"
              · rw [if_pos h3]
                have hj : st.currentBlockIndex ≠ j := hnot msg rfl h3
                dsimp only [updateStatusOutput]
                cases hb : st.codeBlocks[st.currentBlockIndex]? with
                | none => rfl
                | some b =>
                  rw [(afterSwitch_fields hOn _ pid _ _).2.1]
                  show (((st.codeBlocks.set st.currentBlockIndex
                      { b with hasError := true })[j]?).map CodeBlock.hasError) = _
                  rw [List.getElem?_set_ne hj]
              · rw [if_neg h3]
                by_cases h4 : msg.msg_type = some "status"
                · rw [if_pos h4]
                  by_cases h5 : msg.content.execution_state = some "idle" ∧ s0.done = false
                  · rw [if_pos h5]
                    dsimp only [updateStatusOutput]
                    cases hb : st.codeBlocks[st.currentBlockIndex]? with
                    | none => rfl
                    | some b =>
                      dsimp only
                      by_cases h6 : st.currentBlockIndex + 1 < st.codeBlocks.length
                      · rw [if_pos h6]
                        cases hnb : st.codeBlocks[st.currentBlockIndex + 1]? with
                        | none => rfl
                        | some nb =>
                          rw [(afterSwitch_fields hOn _ pid _ _).2.1]
                          rfl
                      · rw [if_neg h6]
                        rw [(afterSwitch_fields hOn _ pid _ _).2.1]
                  · rw [if_neg h5, (afterSwitch_fields hOn _ pid _ _).2.1]
                · rw [if_neg h4, (afterSwitch_fields hOn _ pid _ _).2.1]

/-! ## Claim theorems -/

/-- C1: for a non-empty batch, a resolved run has sent exactly N execute
requests; the j-th request carries id j and cell j's code; at most one
recorded request is not yet done at any reachable state (never two in
flight); and a step can grow the sent-request list only by processing an
idle-status message whose `parent_header.msg_id` is the id of the current
cell's request, the new request being the one for the next cell. -/
theorem c1_sequential_execution (hOn : Bool) (blocks : List CodeBlock) (evs : List Event)
    (_hne : blocks ≠ []) :
    (∀ r : List ExecutionResult,
        (runBatch hOn blocks evs).promise = PromiseState.resolved r →
        (runBatch hOn blocks evs).sentRequests.length = blocks.length) ∧
    (∀ (j : Nat) (req : OutMessage), (runBatch hOn blocks evs).sentRequests[j]? = some req →
        req.msg_id = j ∧ (blocks[j]?).map CodeBlock.code = some req.code) ∧
    (∀ (j1 j2 : Nat) (ms1 ms2 : MessageStatus),
        assocGet (runBatch hOn blocks evs).messageStatus j1 = some ms1 →
        assocGet (runBatch hOn blocks evs).messageStatus j2 = some ms2 →
        ms1.done = false → ms2.done = false → j1 = j2) ∧
    (∀ ev : Event,
        (step hOn (runBatch hOn blocks evs) ev).sentRequests.length ≠
          (runBatch hOn blocks evs).sentRequests.length →
        ∃ msg : InMessage, ev = Event.message (RawData.wellFormed msg) ∧
          msg.msg_type = some "status" ∧
          msg.content.execution_state = some "idle" ∧
          msg.parent_msg_id = some (runBatch hOn blocks evs).currentBlockIndex ∧
          ((runBatch hOn blocks evs).sentRequests[(runBatch hOn blocks
            evs).currentBlockIndex]?).map OutMessage.msg_id =
            some (runBatch hOn blocks evs).currentBlockIndex ∧
          (step hOn (runBatch hOn blocks evs) ev).sentRequests.length =
            (runBatch hOn blocks evs).currentBlockIndex + 2 ∧
          ((step hOn (runBatch hOn blocks evs) ev).sentRequests[(runBatch hOn blocks
            evs).currentBlockIndex + 1]?).map OutMessage.code =
            (blocks[(runBatch hOn blocks evs).currentBlockIndex + 1]?).map CodeBlock.code) := by
  have h := inv_runBatch hOn blocks evs
  refine ⟨?_, h.sent_spec, ?_, ?_⟩
  · intro r hr
    obtain ⟨hidx, hpos, -⟩ := h.resolved_inv r hr
    have := h.sent_len
    omega
  · intro j1 j2 ms1 ms2 hm1 hm2 hd1 hd2
    have hk1 := assocGet_lt_of_keys h.keys hm1
    have hk2 := assocGet_lt_of_keys h.keys hm2
    have e1 := h.done_iff j1 ms1 hm1
    have e2 := h.done_iff j2 ms2 hm2
    rw [hd1] at e1
    rw [hd2] at e2
    simp only [Bool.false_eq_true, false_iff] at e1 e2
    have := h.sent_len
    omega
  · intro ev hnops
    cases ev with
    | errorSignal => exact absurd rfl hnops
    | closeSignal =>
      exfalso
      apply hnops
      show (onclose (runBatch hOn blocks evs)).sentRequests.length = _
      unfold onclose
      split <;> rfl
    | message raw =>
      cases raw with
      | malformed s => exact absurd rfl hnops
      | wellFormed msg =>
        have hsent : ((handleParsed hOn (runBatch hOn blocks evs) msg).state).sentRequests ≠
            (runBatch hOn blocks evs).sentRequests :=
          fun he => hnops (congrArg List.length he)
        obtain ⟨ha, hb2, hc, hd3, _, hf, hg2⟩ := handleParsed_sent h hOn msg hsent
        exact ⟨msg, rfl, ha, hb2, hc, hd3, hf, hg2⟩

/-- Witness for C1 at a concrete single-cell batch that resolves. -/
theorem c1_witness :
    (runBatch false [{ id := "c1", notebookId := "nb", code := "x", hasError := false }]
      [msgEv (idleMsg 0)]).sentRequests.length = 1 :=
  (c1_sequential_execution false
      [{ id := "c1", notebookId := "nb", code := "x", hasError := false }]
      [msgEv (idleMsg 0)] (by decide)).1
    [{ id := "c1", hasError := false, output := "" }] (by decide)

/-- C2: for a single-cell batch, a `stream` "a", then an `execute_result`
with `text/plain` "b", then an idle `status`, all matching the cell's
request id, resolve the run with output `"a" ++ "b\n"` and `hasError`
false. -/
theorem c2_output_accumulation :
    (runBatch false [{ id := "cell1", notebookId := "nb", code := "c", hasError := false }]
      [msgEv (streamMsg 0 "a"), msgEv (resultMsg 0 "b"), msgEv (idleMsg 0)]).promise =
    PromiseState.resolved [{ id := "cell1", hasError := false, output := "a" ++ "b\n" }] := by
  decide

/-- C3: an `error` message (ename "ValueError", evalue "bad", traceback
["line1","line2"]) matching the pending request sets the current cell's
error flag and appends the composed error text; the batch advances on the
following idle (request for the next cell is sent) and resolves normally
with `hasError = true` for the errored cell only. -/
theorem c3_error_recorded_and_batch_continues :
    (runBatch false
      [{ id := "c1", notebookId := "nb", code := "x", hasError := false },
       { id := "c2", notebookId := "nb", code := "y", hasError := false }]
      [msgEv (errorMsg 0 "ValueError" "bad" ["line1", "line2"]), msgEv (idleMsg 0)]).currentBlockIndex = 1 ∧
    (runBatch false
      [{ id := "c1", notebookId := "nb", code := "x", hasError := false },
       { id := "c2", notebookId := "nb", code := "y", hasError := false }]
      [msgEv (errorMsg 0 "ValueError" "bad" ["line1", "line2"]), msgEv (idleMsg 0)]).sentRequests.length = 2 ∧
    (runBatch false
      [{ id := "c1", notebookId := "nb", code := "x", hasError := false },
       { id := "c2", notebookId := "nb", code := "y", hasError := false }]
      [msgEv (errorMsg 0 "ValueError" "bad" ["line1", "line2"]), msgEv (idleMsg 0),
       msgEv (idleMsg 1)]).promise =
      PromiseState.resolved
        [{ id := "c1", hasError := true, output := "Error: ValueError\nbad\nline1\nline2" },
         { id := "c2", hasError := false, output := "" }] := by
  refine ⟨by decide, by decide, by decide⟩

/-- C4: an inbound message whose `parent_header.msg_id` is absent or not a
key of the pending-request map leaves the whole coordinator state unchanged
(the handler returns before any mutation, so no output changes, no index
advance, no `onOutput` call). -/
theorem c4_unmatched_message_ignored (hOn : Bool) (st : CoordState) (msg : InMessage)
    (h : msg.parent_msg_id = none ∨
      ∃ pid : Nat, msg.parent_msg_id = some pid ∧ assocGet st.messageStatus pid = none) :
    onmessage hOn st (RawData.wellFormed msg) = HandlerOutcome.ok st := by
  show handleParsed hOn st msg = HandlerOutcome.ok st
  unfold handleParsed
  rcases h with hnone | ⟨pid, hpid, hget⟩
  · rw [hnone]
  · rw [hpid]
    dsimp only
    rw [hget]

/-- Witness for C4: a stream message with an unknown request id is ignored. -/
theorem c4_witness :
    onmessage false
      (onopen (initState [{ id := "c1", notebookId := "nb", code := "x", hasError := false }]))
      (RawData.wellFormed (streamMsg 5 "zzz")) =
    HandlerOutcome.ok
      (onopen (initState [{ id := "c1", notebookId := "nb", code := "x", hasError := false }])) :=
  c4_unmatched_message_ignored false _ _ (Or.inr ⟨5, rfl, by decide⟩)

/-- C5: a close signal while the current cell index is below the batch
length rejects a pending promise with the closed-before-completion error;
after the run has resolved (all cells completed), a close signal leaves the
state — in particular the resolved promise — untouched. -/
theorem c5_close_rejects_iff_incomplete (hOn : Bool) (blocks : List CodeBlock)
    (evs : List Event) :
    ((runBatch hOn blocks evs).currentBlockIndex <
        (runBatch hOn blocks evs).codeBlocks.length →
      (runBatch hOn blocks evs).promise = PromiseState.pending →
      (step hOn (runBatch hOn blocks evs) Event.closeSignal).promise =
        PromiseState.rejected "WebSocket closed before execution completed") ∧
    (∀ r : List ExecutionResult,
      (runBatch hOn blocks evs).promise = PromiseState.resolved r →
      step hOn (runBatch hOn blocks evs) Event.closeSignal = runBatch hOn blocks evs) := by
  constructor
  · intro hlt hpend
    show (onclose (runBatch hOn blocks evs)).promise = _
    unfold onclose
    rw [if_pos hlt]
    show rejectPromise (runBatch hOn blocks evs).promise
      "WebSocket closed before execution completed" = _
    rw [hpend]
    rfl
  · intro r hr
    have h := inv_runBatch hOn blocks evs
    obtain ⟨hidx, -, -⟩ := h.resolved_inv r hr
    have hbl := h.blocks_len
    show onclose (runBatch hOn blocks evs) = _
    unfold onclose
    rw [if_neg (by omega)]

/-- Witness for C5: close right after open (pending, incomplete) rejects;
close after a completed single-cell run changes nothing. -/
theorem c5_witness :
    (step false
      (runBatch false [{ id := "c1", notebookId := "nb", code := "x", hasError := false }] [])
      Event.closeSignal).promise =
      PromiseState.rejected "WebSocket closed before execution completed" ∧
    step false
      (runBatch false [{ id := "c1", notebookId := "nb", code := "x", hasError := false }]
        [msgEv (idleMsg 0)])
      Event.closeSignal =
      runBatch false [{ id := "c1", notebookId := "nb", code := "x", hasError := false }]
        [msgEv (idleMsg 0)] :=
  ⟨(c5_close_rejects_iff_incomplete false
      [{ id := "c1", notebookId := "nb", code := "x", hasError := false }] []).1
      (by decide) (by decide),
   (c5_close_rejects_iff_incomplete false
      [{ id := "c1", notebookId := "nb", code := "x", hasError := false }]
      [msgEv (idleMsg 0)]).2
      [{ id := "c1", hasError := false, output := "" }] (by decide)⟩

/-- C6: with an empty cell list the code sends nothing and records nothing,
but — contrary to the claim — the promise can never resolve (the only
resolution site sits behind a matched pending request, and the map stays
empty forever), so the run hangs instead of resolving with `[]`. -/
theorem c6_empty_batch_never_resolves (hOn : Bool) (evs : List Event) :
    (runBatch hOn [] evs).sentRequests = [] ∧
    (runBatch hOn [] evs).messageStatus = [] ∧
    ((runBatch hOn [] evs).promise = PromiseState.pending ∨
      ∃ m : String, (runBatch hOn [] evs).promise = PromiseState.rejected m) := by
  have h := inv_runBatch hOn [] evs
  have hlen : (runBatch hOn [] evs).sentRequests.length = 0 := by
    have := h.sent_len
    simpa using this
  refine ⟨List.length_eq_zero.mp hlen, ?_, ?_⟩
  · have hk := h.keys
    rw [hlen] at hk
    have hmap : List.map Prod.fst (runBatch hOn [] evs).messageStatus = [] := by
      simpa using hk
    exact List.map_eq_nil_iff.mp hmap
  · cases hps : (runBatch hOn [] evs).promise with
    | pending => exact Or.inl rfl
    | resolved r =>
      obtain ⟨-, h0, -⟩ := h.resolved_inv r hps
      simp at h0
    | rejected m => exact Or.inr ⟨m, rfl⟩

/-- C7 counterexample: at a concrete reachable state, a malformed frame makes
the message handler throw (the `JSON.parse` `SyntaxError` propagates out of
`ws.onmessage`, which has no try/catch), contradicting "the message handler
does not raise on malformed input"; the carried state is unchanged. -/
theorem c7_counterexample :
    onmessage false
      (onopen (initState [{ id := "c1", notebookId := "nb", code := "x", hasError := false }]))
      (RawData.malformed "not json") =
    HandlerOutcome.thrown JsError.parseError
      (onopen (initState [{ id := "c1", notebookId := "nb", code := "x", hasError := false }])) := by
  decide

/-- C7 (amended): a malformed inbound payload makes the handler throw the
parse error with the coordinator state untouched; since the exception
escapes the event callback, the event loop continues from the same state —
no cell output is mutated, the promise is not settled, and subsequent
messages are processed as if the malformed frame had never arrived. -/
theorem c7_malformed_frame_amended (hOn : Bool) (st : CoordState) (s : String) :
    onmessage hOn st (RawData.malformed s) = HandlerOutcome.thrown JsError.parseError st ∧
    step hOn st (Event.message (RawData.malformed s)) = st :=
  ⟨rfl, rfl⟩

/-- C8 counterexample: `deleteKernel` rejects a 500 response with a message
carrying only the statusText — neither the numeric status nor the response
body — and `listKernels` surfaces a JSON parse failure on a 2xx response as
the native parser rejection, not as the distinct invalid-format error, so
the claim fails for these two operations. -/
theorem c8_counterexample :
    deleteKernel { ok := false, status := 500, statusText := "Internal Server Error", bodyText := "boom", kernelJson := none, kernelListJson := none } =
      Except.error (HttpFailure.appError "Failed to delete kernel: Internal Server Error") ∧
    containsSeq "500".toList "Failed to delete kernel: Internal Server Error".toList = false ∧
    containsSeq "boom".toList "Failed to delete kernel: Internal Server Error".toList = false ∧
    listKernels { ok := true, status := 200, statusText := "OK", bodyText := "not json", kernelJson := none, kernelListJson := none } =
      Except.error HttpFailure.jsonSyntaxError ∧
    HttpFailure.jsonSyntaxError ≠
      HttpFailure.appError "Invalid response format from Jupyter server" := by
  refine ⟨rfl, by decide, by decide, rfl, by decide⟩

theorem containsSeq_of_parts (needle pre suf : List Char) :
    containsSeq needle (pre ++ needle ++ suf) = true := by
  unfold containsSeq
  rw [List.any_eq_true]
  refine ⟨needle ++ suf, ?_, ?_⟩
  · rw [List.mem_tails]
    exact ⟨pre, by simp⟩
  · rw [ List.isPrefixOf_iff_prefix]
    exact List.prefix_append _ _

/-- C8 (amended): only `createKernel` rejects non-2xx with an error carrying
the numeric HTTP status and the response body, and only it maps a 2xx JSON
parse failure to the distinct invalid-format error; `deleteKernel` and
`listKernels` reject non-2xx with a message carrying only the statusText,
and `listKernels` surfaces a 2xx parse failure as the native parser
rejection. -/
theorem c8_lifecycle_errors_amended (resp : HttpResponse) :
    (resp.ok = false →
      (∃ m : String, createKernel resp = Except.error (HttpFailure.appError m) ∧
        containsSeq (toString resp.status).toList m.toList = true ∧
        containsSeq resp.bodyText.toList m.toList = true) ∧
      deleteKernel resp = Except.error (HttpFailure.appError
        ("Failed to delete kernel: " ++ resp.statusText)) ∧
      listKernels resp = Except.error (HttpFailure.appError
        ("Failed to list kernels: " ++ resp.statusText))) ∧
    (resp.ok = true → resp.kernelJson = none →
      createKernel resp = Except.error (HttpFailure.appError
        "Invalid response format from Jupyter server")) ∧
    (resp.ok = true → resp.kernelListJson = none →
      listKernels resp = Except.error HttpFailure.jsonSyntaxError) := by
  refine ⟨?_, ?_, ?_⟩
  · intro hok
    refine ⟨⟨"Failed to create kernel: " ++ toString resp.status ++ " " ++ resp.statusText ++
        (if resp.bodyText = "" then "" else " - " ++ resp.bodyText), ?_, ?_, ?_⟩, ?_, ?_⟩
    · unfold createKernel
      rw [if_pos hok]
    · have hdecomp : ("Failed to create kernel: " ++ toString resp.status ++ " " ++
          resp.statusText ++
          (if resp.bodyText = "" then "" else " - " ++ resp.bodyText)).toList =
          ("Failed to create kernel: ").toList ++ (toString resp.status).toList ++
          (" ".toList ++ resp.statusText.toList ++
            (if resp.bodyText = "" then "" else " - " ++ resp.bodyText).toList) := by
        simp [String.toList]
      rw [hdecomp]
      exact containsSeq_of_parts _ _ _
    · by_cases hbt : resp.bodyText = ""
      · rw [hbt]
        have h0 : ("" : String).toList = ([] : List Char) := rfl
        rw [h0]
        have := containsSeq_of_parts ([] : List Char) []
          ("Failed to create kernel: " ++ toString resp.status ++ " " ++ resp.statusText ++
            (if resp.bodyText = "" then "" else " - " ++ resp.bodyText)).toList
        simpa using this
      · rw [if_neg hbt]
        have hdecomp2 : ("Failed to create kernel: " ++ toString resp.status ++ " " ++
            resp.statusText ++ (" - " ++ resp.bodyText)).toList =
            ("Failed to create kernel: " ++ toString resp.status ++ " " ++
              resp.statusText ++ " - ").toList ++ resp.bodyText.toList ++ [] := by
          simp [String.toList]
        rw [hdecomp2]
        exact containsSeq_of_parts _ _ _
    · unfold deleteKernel
      rw [if_pos hok]
    · unfold listKernels
      rw [if_pos hok]
  · intro hok hkj
    unfold createKernel
    rw [if_neg (by simp [hok]), hkj]
  · intro hok hkj
    unfold listKernels
    rw [if_neg (by simp [hok]), hkj]

/-- Witness for C8 (amended) at concrete responses. -/
theorem c8_witness :
    deleteKernel { ok := false, status := 404, statusText := "Not Found", bodyText := "nope", kernelJson := none, kernelListJson := none } =
      Except.error (HttpFailure.appError "Failed to delete kernel: Not Found") ∧
    listKernels { ok := true, status := 200, statusText := "OK", bodyText := "x", kernelJson := none, kernelListJson := none } =
      Except.error HttpFailure.jsonSyntaxError :=
  ⟨((c8_lifecycle_errors_amended
      { ok := false, status := 404, statusText := "Not Found", bodyText := "nope", kernelJson := none, kernelListJson := none }).1 rfl).2.1,
   (c8_lifecycle_errors_amended
      { ok := true, status := 200, statusText := "OK", bodyText := "x", kernelJson := none, kernelListJson := none }).2.2 rfl rfl⟩

/-- C9: once the batch has completed (`currentBlockIndex` equals the length
of `codeBlocks`), any further inbound message that matches a recorded
request id and produces a non-empty fragment makes the handler — with an
`onOutput` callback supplied — read `codeBlocks[currentBlockIndex]`, an
out-of-range access, and throw a `TypeError` instead of ignoring the late
message. -/
theorem c9_late_message_throws (st : CoordState) (msg : InMessage) (pid : Nat)
    (hidx : st.currentBlockIndex = st.codeBlocks.length)
    (hpid : msg.parent_msg_id = some pid)
    (hmatch : (assocGet st.messageStatus pid).isSome = true)
    (hfrag : (msg.msg_type = some "stream" ∧ msg.content.text.getD "" ≠ "") ∨
      ((msg.msg_type = some "execute_result" ∨ msg.msg_type = some "display_data") ∧
        dataFragment msg.content ≠ "") ∨
      msg.msg_type = some "error") :
    ∃ st' : CoordState,
      onmessage true st (RawData.wellFormed msg) =
        HandlerOutcome.thrown JsError.typeError st' := by
  obtain ⟨s0, hg⟩ := Option.isSome_iff_exists.mp hmatch
  have hnone : st.codeBlocks[st.currentBlockIndex]? = none :=
    List.getElem?_eq_none (le_of_eq hidx.symm)
  show ∃ st', handleParsed true st msg = HandlerOutcome.thrown JsError.typeError st'
  unfold handleParsed
  rw [hpid]
  dsimp only
  rw [hg]
  dsimp only
  rcases hfrag with ⟨hty, htext⟩ | ⟨hty, hdata⟩ | hty
  · rw [if_pos hty]
    unfold afterSwitch
    rw [if_pos ⟨htext, rfl⟩]
    dsimp only [updateStatusOutput]
    rw [hnone]
    exact ⟨_, rfl⟩
  · have h1 : ¬ msg.msg_type = some "stream" := by
      rcases hty with h | h <;> simp [h]
    rw [if_neg h1, if_pos hty]
    unfold afterSwitch
    rw [if_pos ⟨hdata, rfl⟩]
    dsimp only [updateStatusOutput]
    rw [hnone]
    exact ⟨_, rfl⟩
  · have h1 : ¬ msg.msg_type = some "stream" := by simp [hty]
    have h2 : ¬ (msg.msg_type = some "execute_result" ∨
        msg.msg_type = some "display_data") := by simp [hty]
    rw [if_neg h1, if_neg h2, if_pos hty]
    dsimp only [updateStatusOutput]
    rw [hnone]
    exact ⟨_, rfl⟩

/-- Witness for C9: a completed single-cell run followed by a late stream
message matching the old request id throws. -/
theorem c9_witness :
    ∃ st' : CoordState,
      onmessage true
        (runBatch true [{ id := "c1", notebookId := "nb", code := "x", hasError := false }]
          [msgEv (idleMsg 0)])
        (RawData.wellFormed (streamMsg 0 "late")) =
      HandlerOutcome.thrown JsError.typeError st' :=
  c9_late_message_throws _ _ 0 (by decide) rfl (by decide) (Or.inl ⟨rfl, by decide⟩)

/-- C10: `executeNotebookBlocks` never clears a cell's error flag: a cell
handed in with `hasError = true` still carries `true` after any run; when no
error-typed message is processed while a cell is current, its flag is
exactly its initial value; and a resolved result list reports precisely the
final flags of the cells, so a pre-set flag is reported as errored even for
an error-free execution. -/
theorem c10_hasError_monotone (hOn : Bool) (blocks : List CodeBlock) (evs : List Event) :
    (∀ (j : Nat) (b : CodeBlock), blocks[j]? = some b → b.hasError = true →
      ((runBatch hOn blocks evs).codeBlocks[j]?).map CodeBlock.hasError = some true) ∧
    (∀ j : Nat,
      (∀ (l1 l2 : List Event) (msg : InMessage),
        evs = l1 ++ Event.message (RawData.wellFormed msg) :: l2 →
        msg.msg_type = some "error" →
        (runBatch hOn blocks l1).currentBlockIndex ≠ j) →
      ((runBatch hOn blocks evs).codeBlocks[j]?).map CodeBlock.hasError =
        (blocks[j]?).map CodeBlock.hasError) ∧
    (∀ (r : List ExecutionResult) (j : Nat),
      (runBatch hOn blocks evs).promise = PromiseState.resolved r →
      (r[j]?).map ExecutionResult.hasError =
        ((runBatch hOn blocks evs).codeBlocks[j]?).map CodeBlock.hasError) := by
  refine ⟨?_, ?_, ?_⟩
  · intro j b hjb hberr
    obtain ⟨b', hb', _, _, _, herr⟩ := (inv_runBatch hOn blocks evs).blocks_rel j b hjb
    rw [hb']
    simp [herr hberr]
  · intro j
    induction evs using List.reverseRecOn with
    | nil =>
      intro _
      show ((onopen (initState blocks)).codeBlocks[j]?).map CodeBlock.hasError = _
      rw [onopen_codeBlocks]
      rfl
    | append_singleton l e ih =>
      intro hno
      rw [runBatch_concat]
      rw [step_hasError (fun msg he hety => hno l [] msg (by rw [he]) hety)]
      exact ih (fun l1 l2 msg hdec hty => hno l1 (l2 ++ [e]) msg (by rw [hdec]; simp) hty)
  · intro r j hr
    obtain ⟨-, -, hres⟩ := (inv_runBatch hOn blocks evs).resolved_inv r hr
    subst hres
    show ((resultsList (runBatch hOn blocks evs))[j]?).map ExecutionResult.hasError = _
    unfold resultsList
    rw [List.getElem?_map]
    cases (runBatch hOn blocks evs).codeBlocks[j]? <;> rfl

/-- Witness for C10: a cell passed in with `hasError = true` is reported as
errored by an error-free resolved run; an error-free run leaves the flag of
a fresh cell at its initial value. -/
theorem c10_witness :
    ((runBatch false [{ id := "c1", notebookId := "nb", code := "x", hasError := true }]
      [msgEv (idleMsg 0)]).codeBlocks[0]?).map CodeBlock.hasError = some true ∧
    ((runBatch false [{ id := "c2", notebookId := "nb", code := "y", hasError := false }]
      []).codeBlocks[0]?).map CodeBlock.hasError =
      (([{ id := "c2", notebookId := "nb", code := "y", hasError := false }] :
        List CodeBlock)[0]?).map CodeBlock.hasError ∧
    (([{ id := "c1", hasError := true, output := "" }] :
      List ExecutionResult)[0]?).map ExecutionResult.hasError =
      ((runBatch false [{ id := "c1", notebookId := "nb", code := "x", hasError := true }]
        [msgEv (idleMsg 0)]).codeBlocks[0]?).map CodeBlock.hasError :=
  ⟨(c10_hasError_monotone false
      [{ id := "c1", notebookId := "nb", code := "x", hasError := true }]
      [msgEv (idleMsg 0)]).1 0 _ rfl rfl,
   (c10_hasError_monotone false
      [{ id := "c2", notebookId := "nb", code := "y", hasError := false }] []).2.1 0
      (fun l1 l2 msg hdec _ => by simp at hdec),
   (c10_hasError_monotone false
      [{ id := "c1", notebookId := "nb", code := "x", hasError := true }]
      [msgEv (idleMsg 0)]).2.2 _ 0 (by decide)⟩
